import Mathlib

/-!
Verification of the stock-app repository's fetch/parse/cache/fallback layer.

The repository contains two variants of an Alpha Vantage data layer:
* a Next.js server variant (`src/stock-app/src/server/alphaVantage.ts` plus the
  disk cache in `diskCache.ts`), and
* a browser variant with a mock-data fallback
  (`src/stock-app-react`, `src/unnamed/part_002`).

This file shallowly embeds those modules.  Finite JavaScript numbers are
modelled as exact scaled decimals (`JsNum`, a mantissa/power-of-ten pair);
`NaN`/`Infinity` outcomes of the parsing helpers are folded into `Option`
(the TypeScript code always guards parses with `Number.isFinite`, so a
`none` here corresponds exactly to the code's `null` branch).  No claim
below depends on arithmetic over the parsed values, only on whether parsing
succeeds, so IEEE rounding is irrelevant to every statement in this file.
Timestamps (`Date.now()`, ISO strings) are modelled as integers.
Promise-returning functions become pure functions with explicit cache-state
threading; the external HTTP fetch becomes an oracle argument.
-/

namespace StockApp

/-- A JSON value as far as the data layer inspects it: the code only ever
distinguishes strings, objects (string-keyed records) and "everything else". -/
inductive JVal where
  | str (s : String)
  | obj (fields : List (String × JVal))
  | other
deriving Repr

/-- `Record<string, unknown>` payload returned by the upstream API
(`AlphaVantagePayload` in `alphaVantage.ts`).  JavaScript objects have unique
keys; where a proof needs that fact it is an explicit hypothesis. -/
abbrev AlphaVantagePayload := List (String × JVal)

/-- Property access `v[key]` on a JSON value: `undefined` (`none`) unless the
value is an object carrying the key. -/
def jGet (v : JVal) (key : String) : Option JVal :=
  match v with
  | .obj fields => fields.lookup key
  | _ => none

/-- Property access that additionally requires a string value, matching the
`typeof x === "string"` guards in the TypeScript code. -/
def jGetStr (v : JVal) (key : String) : Option String :=
  match jGet v key with
  | some (.str s) => some s
  | _ => none

/-- Top-level string field of a payload (`typeof payload[key] === "string"`). -/
def strField (payload : AlphaVantagePayload) (key : String) : Option String :=
  match payload.lookup key with
  | some (.str s) => some s
  | _ => none

instance {e a : Type} [DecidableEq e] [DecidableEq a] :
    DecidableEq (Except e a) := fun x y =>
  match x, y with
  | .ok v, .ok w =>
    if h : v = w then isTrue (by rw [h]) else isFalse (by simp [h])
  | .error v, .error w =>
    if h : v = w then isTrue (by rw [h]) else isFalse (by simp [h])
  | .ok _, .error _ => isFalse (by simp)
  | .error _, .ok _ => isFalse (by simp)

/-! ### JavaScript numeric string parsing

`Number.parseFloat` parses the longest numeric prefix (optional sign, digits,
optional fraction, optional exponent) and returns `NaN` when no digits are
found; `Number.parseInt(s, 10)` parses an optional sign followed by a digit
prefix.  Both skip leading whitespace.  The embedding returns `none` exactly
when the JavaScript result is not a finite number, which is the only
distinction the data layer ever makes (every call site filters through
`Number.isFinite`). -/

/-- JavaScript `String.prototype.trim` (whitespace on both ends), implemented
over character lists so that the kernel can evaluate it. -/
def jsTrim (s : String) : String :=
  ⟨((s.toList.dropWhile Char.isWhitespace).reverse.dropWhile
      Char.isWhitespace).reverse⟩

/-- Numeric value of a list of decimal digit characters. -/
def digitsVal (ds : List Char) : Nat :=
  ds.foldl (fun a c => a * 10 + (c.toNat - 48)) 0

/-- Split a leading run of decimal digits off a character list. -/
def takeDigits (cs : List Char) : List Char × List Char :=
  (cs.takeWhile Char.isDigit, cs.dropWhile Char.isDigit)

/-- A finite JavaScript number, as the exact decimal `mant * 10 ^ exp10`.
Arithmetic below is exact; the data layer never relies on IEEE rounding. -/
structure JsNum where
  mant : Int
  exp10 : Int
deriving DecidableEq, Repr

def JsNum.ofInt (n : Int) : JsNum := ⟨n, 0⟩

def JsNum.neg (a : JsNum) : JsNum := ⟨-a.mant, a.exp10⟩

def JsNum.mul (a b : JsNum) : JsNum := ⟨a.mant * b.mant, a.exp10 + b.exp10⟩

def JsNum.add (a b : JsNum) : JsNum :=
  let e := min a.exp10 b.exp10
  ⟨a.mant * 10 ^ (a.exp10 - e).toNat + b.mant * 10 ^ (b.exp10 - e).toNat, e⟩

/-- Optional exponent suffix `e`/`E` followed by an optionally signed digit
run; JavaScript only consumes it when at least one digit follows. -/
def expValue (cs : List Char) : Int :=
  match cs with
  | 'e' :: rest | 'E' :: rest =>
    match rest with
    | '+' :: rest2 => (takeDigits rest2).1 |> (fun ds => (digitsVal ds : Int))
    | '-' :: rest2 =>
      let ds := (takeDigits rest2).1
      if ds.isEmpty then 0 else -(digitsVal ds : Int)
    | rest2 =>
      let ds := (takeDigits rest2).1
      (digitsVal ds : Int)
  | _ => 0

/-- Unsigned decimal literal prefix `digits [. digits] [exp]`; `none` when no
digit is found (JavaScript `NaN`). -/
def parseDecCore (cs : List Char) : Option JsNum :=
  let (ip, rest1) := takeDigits cs
  match rest1 with
  | '.' :: rest2 =>
    let (fp, rest3) := takeDigits rest2
    if ip.isEmpty && fp.isEmpty then none
    else some ⟨(digitsVal (ip ++ fp) : Int), expValue rest3 - fp.length⟩
  | _ =>
    if ip.isEmpty then none
    else some ⟨(digitsVal ip : Int), expValue rest1⟩

/-- `Number.parseFloat`, restricted to finite outcomes (`Infinity` and `NaN`
are both `none`; the code immediately discards them via `Number.isFinite`). -/
def jsParseFloat (s : String) : Option JsNum :=
  match (jsTrim s).toList with
  | '+' :: rest => parseDecCore rest
  | '-' :: rest => (parseDecCore rest).map JsNum.neg
  | cs => parseDecCore cs

/-- `Number.parseInt(s, 10)`, restricted to finite outcomes. -/
def jsParseIntDec (s : String) : Option Int :=
  match (jsTrim s).toList with
  | '+' :: rest =>
    let ds := (takeDigits rest).1
    if ds.isEmpty then none else some (digitsVal ds : Int)
  | '-' :: rest =>
    let ds := (takeDigits rest).1
    if ds.isEmpty then none else some (-(digitsVal ds : Int))
  | cs =>
    let ds := (takeDigits cs).1
    if ds.isEmpty then none else some (digitsVal ds : Int)

/-- `value.replace(/,/g, "")`: remove every comma. -/
def removeCommas (s : String) : String :=
  ⟨s.toList.filter (· ≠ ',')⟩

/-- `value.replace("%", "")`: JavaScript string-pattern `replace` removes only
the first occurrence. -/
def removeFirstChar (c : Char) : List Char → List Char
  | [] => []
  | x :: xs => if x = c then xs else x :: removeFirstChar c xs

def jsReplaceFirstPercent (s : String) : String :=
  ⟨removeFirstChar '%' s.toList⟩

/-! ### Field parsers (`alphaVantage.ts` lines 116–181) -/

/-- `parseNumber`: `null` unless the value is a string whose trimmed form is
non-empty and whose comma-stripped form `parseFloat`s to a finite number. -/
def parseNumber (value : Option String) : Option JsNum :=
  match value with
  | none => none
  | some v =>
    if (jsTrim v).length == 0 then none
    else jsParseFloat (removeCommas v)

/-- `parsePercent`: strip the first `%`, then `parseNumber`. -/
def parsePercent (value : Option String) : Option JsNum :=
  match value with
  | none => none
  | some v => parseNumber (some (jsReplaceFirstPercent v))

/-- `parseInteger`: like `parseNumber` but through `Number.parseInt`. -/
def parseInteger (value : Option String) : Option Int :=
  match value with
  | none => none
  | some v =>
    if (jsTrim v).length == 0 then none
    else jsParseIntDec (removeCommas v)

/-- `requireNumber`: a failed `parseNumber` raises `AlphaVantageError`. -/
def requireNumber (value : Option String) (field symbol : String) :
    Except String JsNum :=
  match parseNumber value with
  | none =>
    .error ("Missing numeric \"" ++ field ++
      "\" in Alpha Vantage response for " ++ symbol ++ ".")
  | some r => .ok r

/-- `requireDate`: the value must be a string with non-whitespace content; it
is returned verbatim. -/
def requireDate (value : Option String) (symbol : String) :
    Except String String :=
  match value with
  | some v =>
    if (jsTrim v).length == 0 then
      .error ("Missing date value in Alpha Vantage response for " ++
        symbol ++ ".")
    else .ok v
  | none =>
    .error ("Missing date value in Alpha Vantage response for " ++
      symbol ++ ".")

end StockApp

example : StockApp.parseNumber (some "1,234.5") = some ⟨12345, -1⟩ := by
  decide

example : StockApp.parseNumber (some "abc") = none := by decide

example : StockApp.parsePercent (some "2.5%") = some ⟨25, -1⟩ := by decide

example : StockApp.parseInteger (some "12.7") = some 12 := by decide

example : StockApp.parseInteger none = none := rfl

namespace StockApp

/-! ### Disk cache (`diskCache.ts`)

The backing store is one JSON file per hashed key.  It is modelled as an
association list from (unhashed) keys to containers; the SHA-256 key hashing
is injective for the purposes of the store, so the model keys directly by the
cache-key string.  All I/O failures are collapsed into the `none`/no-op
branches exactly as the TypeScript `try`/`catch` does. -/

structure CacheContainer where
  timestamp : Int
  data : AlphaVantagePayload
deriving Repr

abbrev DiskCache := List (String × CacheContainer)

/-- `fs.rm(filePath, { force: true })`: drop the entry for a key. -/
def eraseKey (key : String) (cache : DiskCache) : DiskCache :=
  cache.filter (fun e => e.1 != key)

/-- `readFromDiskCache`: miss when disabled, absent, or older than the TTL
(stale entries are eagerly deleted, so the possibly-updated store is returned
alongside the result). -/
def readFromDiskCache (enabled : Bool) (now : Int) (cache : DiskCache)
    (key : String) (ttlMs : Int) : Option CacheContainer × DiskCache :=
  if !enabled then (none, cache)
  else
    match cache.lookup key with
    | none => (none, cache)
    | some c =>
      if now - c.timestamp ≤ ttlMs then (some c, cache)
      else (none, eraseKey key cache)

/-- `writeToDiskCache`: no-op when disabled, otherwise overwrite the entry
with the current instant as its timestamp. -/
def writeToDiskCache (enabled : Bool) (now : Int) (cache : DiskCache)
    (key : String) (value : AlphaVantagePayload) : DiskCache :=
  if !enabled then cache
  else (key, ⟨now, value⟩) :: eraseKey key cache

/-! ### Cache key derivation (`alphaVantage.ts` lines 50–56) -/

def DAY_IN_SECONDS : Int := 60 * 60 * 24

def DISK_CACHE_TTL_MS : Int := DAY_IN_SECONDS * 1000

/-- JSON string escaping (quote and backslash; the keys and values used by
the app contain no control characters). -/
def jsonEscapeChar (c : Char) : List Char :=
  if c = '"' || c = '\\' then ['\\', c] else [c]

def jsonQuote (s : String) : String :=
  "\"" ++ (⟨(s.toList.map jsonEscapeChar).flatten⟩ : String) ++ "\""

/-- `JSON.stringify` of an array of `[key, value]` string pairs. -/
def jsonStringifyPairs (l : List (String × String)) : String :=
  "[" ++ String.intercalate ","
    (l.map (fun p => "[" ++ jsonQuote p.1 ++ "," ++ jsonQuote p.2 ++ "]")) ++
  "]"

/-- Lexicographic `≤` on character lists (the order of JavaScript string
comparison, and of `localeCompare` on the ASCII strings this app sorts),
as an executable Boolean. -/
def listCharLe : List Char → List Char → Bool
  | [], _ => true
  | _ :: _, [] => false
  | a :: as, b :: bs =>
    if a < b then true else if b < a then false else listCharLe as bs

def strLe (a b : String) : Bool := listCharLe a.toList b.toList

/-- Key order used by `Object.entries(params).sort(([a], [b]) =>
a.localeCompare(b))`. -/
def paramLe (p q : String × String) : Prop := strLe p.1 q.1 = true

instance : DecidableRel paramLe :=
  fun p q => inferInstanceAs (Decidable (strLe p.1 q.1 = true))

/-- The sorted parameter list (a JavaScript `Array.prototype.sort`, which
must agree with any consistent comparator; insertion sort realises it). -/
def sortedParams (params : List (String × String)) : List (String × String) :=
  List.insertionSort paramLe params

/-- `cacheKey`, the canonicalized request description. -/
def cacheKey (params : List (String × String)) : String :=
  "alpha-vantage:" ++ jsonStringifyPairs (sortedParams params)

/-! ### Upstream client and orchestrator core (`fetchAlphaVantage`) -/

/-- Outcome of the HTTP layer: a non-2xx status, or a parsed JSON body. -/
inductive HttpResponse where
  | failure (status : Nat) (statusText : String)
  | success (payload : AlphaVantagePayload)

/-- The environment's view of the network: what one GET for a given parameter
set returns.  `fetchAlphaVantage` consults it at most once per call. -/
abbrev Upstream := List (String × String) → HttpResponse

/-- A top-level field that is present as a non-empty string. -/
def nonEmptyStrField (payload : AlphaVantagePayload) (key : String) :
    Option String :=
  match strField payload key with
  | some s => if s.length > 0 then some s else none
  | none => none

/-- The sentinel checks of `fetchAlphaVantage` (lines 96–111): `Note`, then
`"Error Message"`, then `Information`, each required to be a non-empty
string to fire. -/
def sentinelError (payload : AlphaVantagePayload) : Option String :=
  match nonEmptyStrField payload "Note" with
  | some s => some s
  | none =>
    match nonEmptyStrField payload "Error Message" with
    | some s => some s
    | none => nonEmptyStrField payload "Information"

/-- `CachedResult<T>`; `cachedAt` is the instant the payload entered the
cache (an ISO timestamp string in the source, an integer instant here). -/
structure CachedResult (T : Type) where
  data : T
  cachedAt : Int
deriving DecidableEq, Repr

/-- `fetchAlphaVantage`: cache read; on miss an HTTP GET, JSON parse and an
unconditional cache write; then the sentinel check on whichever payload was
obtained (cached or fresh); errors are `AlphaVantageError` messages.  The
updated disk cache is returned alongside the result. -/
def fetchAlphaVantage (enabled : Bool) (upstream : Upstream) (now : Int)
    (cache : DiskCache) (params : List (String × String)) :
    Except String (CachedResult AlphaVantagePayload) × DiskCache :=
  let key := cacheKey params
  let (cached, cache1) := readFromDiskCache enabled now cache key
    DISK_CACHE_TTL_MS
  match cached with
  | some c =>
    match sentinelError c.data with
    | some msg => (.error msg, cache1)
    | none => (.ok ⟨c.data, c.timestamp⟩, cache1)
  | none =>
    match upstream params with
    | .failure status statusText =>
      (.error ("Alpha Vantage responded with " ++ toString status ++ ": " ++
        statusText), cache1)
    | .success payload =>
      let cache2 := writeToDiskCache enabled now cache1 key payload
      match sentinelError payload with
      | some msg => (.error msg, cache2)
      | none => (.ok ⟨payload, now⟩, cache2)

end StockApp

namespace StockApp

/-! ### Quote normalizer (`getGlobalQuoteInternal`, lines 196–241) -/

structure StockQuote where
  symbol : String
  open_ : JsNum
  high : JsNum
  low : JsNum
  price : JsNum
  previousClose : JsNum
  change : JsNum
  changePercent : JsNum
  latestTradingDay : String
  volume : Option Int
deriving DecidableEq, Repr

/-- The normalization stage of `getGlobalQuoteInternal`: everything after the
payload is obtained from `fetchAlphaVantage`.  The field order follows the
object-literal evaluation order of the source (the first failing required
field determines the error). -/
def parseGlobalQuote (symbol : String) (payload : AlphaVantagePayload) :
    Except String StockQuote :=
  match payload.lookup "Global Quote" with
  | some (.obj fields) =>
    let d : JVal := .obj fields
    do
      let o ← requireNumber (jGetStr d "02. open") "open" symbol
      let h ← requireNumber (jGetStr d "03. high") "high" symbol
      let l ← requireNumber (jGetStr d "04. low") "low" symbol
      let p ← requireNumber (jGetStr d "05. price") "price" symbol
      let pc ← requireNumber (jGetStr d "08. previous close")
        "previous close" symbol
      let ch ← requireNumber (jGetStr d "09. change") "change" symbol
      let cp ← match parsePercent (jGetStr d "10. change percent") with
        | none =>
          .error ("Missing change percent in Alpha Vantage response for " ++
            symbol ++ ".")
        | some v => pure v
      let ltd ← requireDate (jGetStr d "07. latest trading day") symbol
      return { symbol := symbol, open_ := o, high := h, low := l, price := p,
               previousClose := pc, change := ch, changePercent := cp,
               latestTradingDay := ltd,
               volume := parseInteger (jGetStr d "06. volume") }
  | _ =>
    .error ("Unexpected GLOBAL_QUOTE response shape for " ++ symbol ++ ".")

/-- `getGlobalQuoteInternal`: fetch (cache-aware) then normalize. -/
def getGlobalQuoteInternal (enabled : Bool) (upstream : Upstream) (now : Int)
    (cache : DiskCache) (symbol : String) :
    Except String (CachedResult StockQuote) × DiskCache :=
  let (r, cache') := fetchAlphaVantage enabled upstream now cache
    [("function", "GLOBAL_QUOTE"), ("symbol", symbol)]
  match r with
  | .error e => (.error e, cache')
  | .ok cr =>
    match parseGlobalQuote symbol cr.data with
    | .error e => (.error e, cache')
    | .ok q => (.ok ⟨q, cr.cachedAt⟩, cache')

/-! ### Daily series (`fetchDailySeriesPayload`, `getDailySeriesInternal`) -/

structure DailySeriesPoint where
  date : String
  open_ : JsNum
  high : JsNum
  low : JsNum
  close : JsNum
  volume : Option Int
deriving DecidableEq, Repr

/-- Case-insensitive substring test `message.toLowerCase().includes(pat)`,
over character lists. -/
def matchesAt (pat : List Char) (cs : List Char) : Bool :=
  match pat, cs with
  | [], _ => true
  | _ :: _, [] => false
  | p :: ps, c :: rest => p == c && matchesAt ps rest

def hasSubstring (pat : List Char) : List Char → Bool
  | [] => matchesAt pat []
  | c :: cs => matchesAt pat (c :: cs) || hasSubstring pat cs

def jsToLower (s : String) : String := ⟨s.toList.map Char.toLower⟩

/-- `isPremiumEndpointMessage` (lines 42–43). -/
def isPremiumEndpointMessage (message : String) : Bool :=
  hasSubstring "premium endpoint".toList (jsToLower message).toList

/-- `fetchDailySeriesPayload` (lines 305–329): standard endpoint first, one
retry against the adjusted endpoint when the failure message indicates a
premium endpoint, any other failure rethrown. -/
def fetchDailySeriesPayload (enabled : Bool) (upstream : Upstream) (now : Int)
    (cache : DiskCache) (symbol : String) :
    Except String (CachedResult AlphaVantagePayload) × DiskCache :=
  let (r1, cache1) := fetchAlphaVantage enabled upstream now cache
    [("function", "TIME_SERIES_DAILY"), ("symbol", symbol),
     ("outputsize", "compact")]
  match r1 with
  | .ok v => (.ok v, cache1)
  | .error msg =>
    if isPremiumEndpointMessage msg then
      fetchAlphaVantage enabled upstream now cache1
        [("function", "TIME_SERIES_DAILY_ADJUSTED"), ("symbol", symbol),
         ("outputsize", "compact")]
    else (.error msg, cache1)

/-- The per-day body of the `entries.map` callback (lines 355–369): close is
required-or-skip (`ok none` models the callback returning `null`), open,
high and low are required-or-fail (a thrown `AlphaVantageError` aborts the
whole `map`), volume is optional with the `"6. volume" ?? "5. volume"`
fallback. -/
def parseDailyPoint (symbol date : String) (values : JVal) :
    Except String (Option DailySeriesPoint) :=
  match parseNumber (jGetStr values "4. close") with
  | none => .ok none
  | some close => do
    let o ← requireNumber (jGetStr values "1. open") "open" symbol
    let h ← requireNumber (jGetStr values "2. high") "high" symbol
    let l ← requireNumber (jGetStr values "3. low") "low" symbol
    let volRaw := match (jGet values "6. volume").orElse
        (fun _ => jGet values "5. volume") with
      | some (.str s) => some s
      | _ => none
    return some
      { date := date, open_ := o, high := h, low := l, close := close,
        volume := parseInteger volRaw }

/-- `entries.map(...)` with a callback that can throw: the first failing
entry (in entry order) aborts with its error. -/
def mapDaily (symbol : String) :
    List (String × JVal) → Except String (List (Option DailySeriesPoint))
  | [] => .ok []
  | (date, values) :: rest => do
    let p ← parseDailyPoint symbol date values
    let ps ← mapDaily symbol rest
    return p :: ps

/-- Ascending order used by `points.sort((a, b) => (a.date > b.date ? 1 : -1))`. -/
def pointLe (a b : DailySeriesPoint) : Prop := strLe a.date b.date = true

instance : DecidableRel pointLe :=
  fun a b => inferInstanceAs (Decidable (strLe a.date b.date = true))

/-- The normalization stage of `getDailySeriesInternal` (lines 336–373):
shape check, raw-entry emptiness check, per-day map, filter of skipped days,
ascending sort by date. -/
def parseDailySeries (symbol : String) (payload : AlphaVantagePayload) :
    Except String (List DailySeriesPoint) :=
  match payload.lookup "Time Series (Daily)" with
  | some (.obj entries) =>
    if entries.isEmpty then
      .error ("TIME_SERIES_DAILY returned no data for " ++ symbol ++ ".")
    else do
      let mapped ← mapDaily symbol entries
      return List.insertionSort pointLe (mapped.filterMap id)
  | _ =>
    .error ("Unexpected TIME_SERIES_DAILY response shape for " ++ symbol ++
      ".")

/-- `getDailySeriesInternal`: premium-fallback fetch then normalize. -/
def getDailySeriesInternal (enabled : Bool) (upstream : Upstream) (now : Int)
    (cache : DiskCache) (symbol : String) :
    Except String (CachedResult (List DailySeriesPoint)) × DiskCache :=
  let (r, cache') := fetchDailySeriesPayload enabled upstream now cache symbol
  match r with
  | .error e => (.error e, cache')
  | .ok cr =>
    match parseDailySeries symbol cr.data with
    | .error e => (.error e, cache')
    | .ok pts => (.ok ⟨pts, cr.cachedAt⟩, cache')

end StockApp

namespace StockApp

/-! ### Next.js page-level fan-out
(`src/stock-app/src/app/stocks/[symbol]/page.tsx`, `fetchStockData`)

The three getters are issued through `Promise.allSettled`, whose contract is
that every promise runs to completion and the results are collected
independently.  The embedding therefore takes the three settled outcomes as
inputs and models only the combination logic, which is where the
partial-failure policy lives. -/

structure CompanyOverview where
  symbol : String
  assetType : Option String
  name : Option String
  description : Option String
  exchange : Option String
  sector : Option String
  industry : Option String
  marketCapitalization : Option Int
deriving DecidableEq, Repr

/-- One element of a `Promise.allSettled` result. -/
inductive SettledResult (T : Type) where
  | fulfilled (value : T)
  | rejected (reason : String)

/-- The record built by `fetchStockData` (page.tsx lines 109–144). -/
structure StockPageData where
  quote : Option StockQuote
  quoteCachedAt : Option Int
  series : List DailySeriesPoint
  seriesCachedAt : Option Int
  overview : Option CompanyOverview
  overviewCachedAt : Option Int
  overviewError : Option String
  error : Option String

/-- `fetchStockData`'s combination of the three settled outcomes. -/
def fetchStockData (quoteResult : SettledResult (CachedResult StockQuote))
    (seriesResult : SettledResult (CachedResult (List DailySeriesPoint)))
    (overviewResult : SettledResult (CachedResult CompanyOverview)) :
    StockPageData :=
  let quoteData := match quoteResult with
    | .fulfilled v => some v
    | .rejected _ => none
  let seriesData := match seriesResult with
    | .fulfilled v => some v
    | .rejected _ => none
  let overviewData := match overviewResult with
    | .fulfilled v => some v
    | .rejected _ => none
  let criticalError := match quoteResult with
    | .rejected r => some r
    | .fulfilled _ =>
      match seriesResult with
      | .rejected r => some r
      | .fulfilled _ => none
  { quote := quoteData.map (·.data),
    quoteCachedAt := quoteData.map (·.cachedAt),
    series := (seriesData.map (·.data)).getD [],
    seriesCachedAt := seriesData.map (·.cachedAt),
    overview := overviewData.map (·.data),
    overviewCachedAt := overviewData.map (·.cachedAt),
    overviewError := match overviewResult with
      | .rejected r => some r
      | .fulfilled _ => none,
    error := criticalError }

/-! ### Browser variant (`src/unnamed/part_002`, `src/stock-app-react`) -/

/-- `ENV` from `src/stock-app-react/src/config/env.ts`: the API key defaults
to the empty string (trimmed when present) and the mock flag is set only by
the literal string `"true"`. -/
structure Env where
  alphaVantageApiKey : String
  useMocks : Bool
deriving Repr

def makeEnv (rawApiKey rawUseMocks : Option String) : Env :=
  { alphaVantageApiKey := (rawApiKey.map jsTrim).getD "",
    useMocks := rawUseMocks == some "true" }

/-- `shouldUseMocks` (env.ts line 12). -/
def shouldUseMocks (env : Env) : Bool :=
  env.useMocks || env.alphaVantageApiKey.length == 0

/-- The react variant's daily price record (`timeSeriesEntrySchema`). -/
structure DailyPrice where
  date : String
  close : JsNum
  volume : Int
deriving DecidableEq, Repr

/-- Descending order used by `validEntries.sort((a, b) =>
(a.date > b.date ? -1 : 1))` in `parseTimeSeriesDaily`. -/
def priceGe (a b : DailyPrice) : Prop := strLe b.date a.date = true

instance : DecidableRel priceGe :=
  fun a b => inferInstanceAs (Decidable (strLe b.date a.date = true))

/-- One entry of the zod record schema: both `"4. close"` and `"5. volume"`
must be present as strings or the whole `alphaDailySeriesSchema.parse`
throws. -/
def zodDailyEntry (v : JVal) : Option (String × String) :=
  match jGetStr v "4. close", jGetStr v "5. volume" with
  | some c, some vol => some (c, vol)
  | _, _ => none

/-- Validate every record entry against the zod entry schema (a zod failure
message is not inspected by any caller, so it is a fixed string here). -/
def zodDailyEntries :
    List (String × JVal) → Except String (List (String × String × String))
  | [] => .ok []
  | (date, v) :: rest => do
    match zodDailyEntry v with
    | none => .error "AlphaVantage daily series failed schema validation"
    | some (c, vol) => do
      let others ← zodDailyEntries rest
      return (date, c, vol) :: others

/-- `parseTimeSeriesDaily` (`part_002` lines 84–104): zod-validate, map each
entry to `{date, close, volume}` with JavaScript number parsing, keep only
entries whose close and volume are both finite, sort DESCENDING by date. -/
def parseTimeSeriesDaily (payload : AlphaVantagePayload) :
    Except String (List DailyPrice) :=
  match payload.lookup "Time Series (Daily)" with
  | none => .error "AlphaVantage response missing time series data"
  | some (.obj entries) => do
    let checked ← zodDailyEntries entries
    let validEntries := checked.filterMap (fun e =>
      match jsParseFloat e.2.1, jsParseIntDec e.2.2 with
      | some c, some vol => some ({ date := e.1, close := c, volume := vol } : DailyPrice)
      | _, _ => none)
    return List.insertionSort priceGe validEntries
  | some _ => .error "AlphaVantage daily series failed schema validation"

end StockApp

namespace StockApp

/-! ### Mock data (`src/stock-app-react/src/data/mockStockData.ts`)

`createCompanyOverview`/`createTimeSeries` generate the static tables.  The
zod re-validation performed on the generated tables accepts every generated
record (all fields match the schemas by construction) and acts as the
identity, so the tables are the generators' outputs keyed by ticker.  Close
prices use exact decimal arithmetic: every generated close has at most two
decimals, so `Number((x).toFixed(2))` is the identity on them. -/

def STOCK_TICKERS : List String :=
  ["CRWV", "NBIS", "WULF", "WYFI", "CRDO", "CXDO", "GEV", "SSSS", "FLEX",
   "CCOI", "GD", "CORZ", "IREN", "CIFR", "TSLA"]

/-- The react variant's overview record (`companyOverviewSchema`): every
field except `symbol` optional, `marketCapitalization` kept as a string. -/
structure MockCompanyOverview where
  symbol : String
  assetType : Option String
  name : Option String
  description : Option String
  exchange : Option String
  sector : Option String
  industry : Option String
  marketCapitalization : Option String
deriving DecidableEq, Repr

def sectors : List String := ["Technology", "Energy", "Finance", "Healthcare"]

def industries : List String :=
  ["Software", "Blockchain", "Semiconductors", "Biotech"]

def createCompanyOverview (symbol : String) (index : Nat) :
    MockCompanyOverview :=
  let sector := sectors.getD (index % sectors.length) ""
  let industry :=
    if index % 4 == 0 then none
    else some (industries.getD (index % industries.length) "")
  let exchange := if index % 2 == 0 then "NASDAQ" else "NYSE"
  { symbol := symbol,
    assetType := some "Common Stock",
    name := some (symbol ++ " Holdings"),
    description := some (symbol ++ " is a mock company focused on " ++
      jsToLower sector ++ " solutions."),
    exchange := some exchange,
    sector := some sector,
    industry := industry,
    marketCapitalization := some (toString (1000000000 + index * 250000000)) }

/-- `new Date(Date.UTC(2024, 0, d)).toISOString().slice(0, 10)` for
`d = 1..10`. -/
def mockDate (d : Nat) : String :=
  "2024-01-" ++ (if d < 10 then "0" else "") ++ toString d

def createTimeSeries (symbol : String) (index : Nat) : List DailyPrice :=
  let basePrice : JsNum :=
    .ofInt (30 + ((symbol.toList.headD 'A').toNat % 25 : Nat) + index)
  let baseVolume : Int := 250000 + index * 5000
  (((List.range 10).map (fun dayIndex =>
    ({ date := mockDate (dayIndex + 1),
       close := basePrice.add (JsNum.mul ⟨dayIndex, 0⟩ ⟨125, -2⟩),
       volume := baseVolume + dayIndex * 12500 } : DailyPrice)))).reverse

/-- `companyOverviewBySymbol`, as the association table built by
`Object.fromEntries(STOCK_TICKERS.map((symbol, index) => ...))`. -/
def companyOverviewBySymbol : List (String × MockCompanyOverview) :=
  STOCK_TICKERS.enum.map (fun e => (e.2, createCompanyOverview e.2 e.1))

/-- `timeSeriesDailyBySymbol`. -/
def timeSeriesDailyBySymbol : List (String × List DailyPrice) :=
  STOCK_TICKERS.enum.map (fun e => (e.2, createTimeSeries e.2 e.1))

/-- `getMockOverview(symbol)`: indexing the total TypeScript
`Record<StockTicker, CompanyOverview>`; on the closed ticker union the table
always has the entry, so the default is never reached for supported
tickers. -/
def getMockOverview (symbol : String) : MockCompanyOverview :=
  (companyOverviewBySymbol.lookup symbol).getD (createCompanyOverview symbol 0)

/-- `getMockDailySeries(symbol)`. -/
def getMockDailySeries (symbol : String) : List DailyPrice :=
  (timeSeriesDailyBySymbol.lookup symbol).getD []

/-! ### Mock-fallback policy (`part_002` lines 151–171) -/

inductive FetchSource where
  | api
  | mock
deriving DecidableEq, Repr

structure FetchFallBack (T : Type) where
  data : T
  source : FetchSource
deriving DecidableEq, Repr

/-- `withMockFallback`: mocks when `shouldUseMocks()`, otherwise the fetcher
with a catch-all fallback to mocks.  The fetcher argument is the outcome of
the network fetch; when mocks are on it is never inspected (the code returns
before `fetcher()` is invoked, so no network request happens). -/
def withMockFallback {T : Type} (env : Env) (fetcher : Except String T)
    (mockProvider : T) : FetchFallBack T :=
  if shouldUseMocks env then { data := mockProvider, source := .mock }
  else
    match fetcher with
    | .ok d => { data := d, source := .api }
    | .error _ => { data := mockProvider, source := .mock }

/-- `companyOverviewQueryOptions(symbol).queryFn`: the fallback result's
`data` projection. -/
def companyOverviewQueryFn (env : Env)
    (fetcher : Except String MockCompanyOverview) (symbol : String) :
    MockCompanyOverview :=
  (withMockFallback env fetcher (getMockOverview symbol)).data

/-- `dailySeriesQueryOptions(symbol).queryFn`. -/
def dailySeriesQueryFn (env : Env) (fetcher : Except String (List DailyPrice))
    (symbol : String) : List DailyPrice :=
  (withMockFallback env fetcher (getMockDailySeries symbol)).data

end StockApp

namespace StockApp

/-! ### Order facts about the executable string order -/

theorem listCharLe_total : ∀ as bs : List Char,
    listCharLe as bs = true ∨ listCharLe bs as = true
  | [], _ => Or.inl rfl
  | _ :: _, [] => Or.inr rfl
  | a :: as, b :: bs => by
    rcases lt_trichotomy a b with h | h | h
    · left; simp [listCharLe, h]
    · subst h
      rcases listCharLe_total as bs with ih | ih
      · left; simp [listCharLe, lt_irrefl, ih]
      · right; simp [listCharLe, lt_irrefl, ih]
    · right; simp [listCharLe, h]

theorem listCharLe_trans : ∀ {as bs cs : List Char},
    listCharLe as bs = true → listCharLe bs cs = true →
    listCharLe as cs = true
  | [], _, _, _, _ => rfl
  | _ :: _, [], _, h1, _ => by simp [listCharLe] at h1
  | _ :: _, _ :: _, [], _, h2 => by simp [listCharLe] at h2
  | a :: as, b :: bs, c :: cs, h1, h2 => by
    by_cases hab : a < b
    · by_cases hbc : b < c
      · simp [listCharLe, lt_trans hab hbc]
      · by_cases hcb : c < b
        · simp [listCharLe, hbc, hcb] at h2
        · have hbc' : b = c := le_antisymm (not_lt.mp hcb) (not_lt.mp hbc)
          subst hbc'
          simp [listCharLe, hab]
    · by_cases hba : b < a
      · simp [listCharLe, hab, hba] at h1
      · have hab' : a = b := le_antisymm (not_lt.mp hba) (not_lt.mp hab)
        subst hab'
        simp only [listCharLe, lt_irrefl, if_false] at h1 ⊢
        by_cases hac : a < c
        · simp [hac]
        · by_cases hca : c < a
          · simp [listCharLe, hac, hca] at h2
          · have hac' : a = c := le_antisymm (not_lt.mp hca) (not_lt.mp hac)
            subst hac'
            simp only [listCharLe, lt_irrefl, if_false] at h2 ⊢
            exact listCharLe_trans h1 h2

theorem listCharLe_antisymm : ∀ {as bs : List Char},
    listCharLe as bs = true → listCharLe bs as = true → as = bs
  | [], [], _, _ => rfl
  | [], _ :: _, _, h2 => by simp [listCharLe] at h2
  | _ :: _, [], h1, _ => by simp [listCharLe] at h1
  | a :: as, b :: bs, h1, h2 => by
    by_cases hab : a < b
    · simp [listCharLe, hab, lt_asymm hab] at h2
    · by_cases hba : b < a
      · simp [listCharLe, hab, hba] at h1
      · have hab' : a = b := le_antisymm (not_lt.mp hba) (not_lt.mp hab)
        subst hab'
        simp only [listCharLe, lt_irrefl, if_false] at h1 h2
        exact congrArg (a :: ·) (listCharLe_antisymm h1 h2)

theorem strLe_total (a b : String) : strLe a b = true ∨ strLe b a = true :=
  listCharLe_total _ _

theorem strLe_trans {a b c : String} (h1 : strLe a b = true)
    (h2 : strLe b c = true) : strLe a c = true :=
  listCharLe_trans h1 h2

theorem strLe_antisymm {a b : String} (h1 : strLe a b = true)
    (h2 : strLe b a = true) : a = b :=
  String.toList_inj.mp (listCharLe_antisymm h1 h2)

instance : IsTotal (String × String) paramLe := ⟨fun p q => strLe_total p.1 q.1⟩

instance : IsTrans (String × String) paramLe := ⟨fun _ _ _ => strLe_trans⟩

instance : IsTotal DailySeriesPoint pointLe := ⟨fun a b => strLe_total a.date b.date⟩

instance : IsTrans DailySeriesPoint pointLe := ⟨fun _ _ _ => strLe_trans⟩

instance : IsTotal DailyPrice priceGe := ⟨fun a b => strLe_total b.date a.date⟩

instance : IsTrans DailyPrice priceGe := ⟨fun _ _ _ h1 h2 => strLe_trans h2 h1⟩

/-- Strict key order on parameter pairs: antisymmetric (vacuously), which is
what pins down a sorted list with distinct keys uniquely. -/
def paramLt (p q : String × String) : Prop := paramLe p q ∧ p.1 ≠ q.1

instance : IsAntisymm (String × String) paramLt :=
  ⟨fun _ _ h1 h2 => absurd (strLe_antisymm h1.1 h2.1) h1.2⟩

end StockApp

namespace StockApp

/-- C10: cache-key derivation is deterministic and independent of
parameter-set construction order: two request parameter mappings with the
same key/value pairs (JavaScript object = distinct keys) in any order derive
identical cache keys. -/
theorem cacheKey_deterministic (l1 l2 : List (String × String))
    (hperm : l1.Perm l2) (hnodup : (l1.map Prod.fst).Nodup) :
    cacheKey l1 = cacheKey l2 := by
  have p1 : (sortedParams l1).Perm l1 := List.perm_insertionSort paramLe l1
  have p2 : (sortedParams l2).Perm l2 := List.perm_insertionSort paramLe l2
  have pp : (sortedParams l1).Perm (sortedParams l2) :=
    (p1.trans hperm).trans p2.symm
  have n1 : ((sortedParams l1).map Prod.fst).Nodup :=
    ((p1.map Prod.fst).symm).nodup hnodup
  have n2 : ((sortedParams l2).map Prod.fst).Nodup :=
    ((p2.map Prod.fst).symm).nodup (hperm.map Prod.fst |>.nodup hnodup)
  have st1 : List.Sorted paramLt (sortedParams l1) :=
    ((List.sorted_insertionSort paramLe l1).and
      (List.pairwise_map.mp n1)).imp fun h => h
  have st2 : List.Sorted paramLt (sortedParams l2) :=
    ((List.sorted_insertionSort paramLe l2).and
      (List.pairwise_map.mp n2)).imp fun h => h
  have hs : sortedParams l1 = sortedParams l2 :=
    List.eq_of_perm_of_sorted pp st1 st2
  unfold cacheKey
  rw [hs]

/-- Witness for C10 at the spec's own example, `{a:1,b:2}` vs `{b:2,a:1}`. -/
theorem cacheKey_deterministic_witness :
    cacheKey [("a", "1"), ("b", "2")] = cacheKey [("b", "2"), ("a", "1")] :=
  cacheKey_deterministic _ _ (by decide) (by decide)

end StockApp

namespace StockApp

/-- A payload carries a sentinel soft-failure signal: one of the three
well-known fields is present as a non-empty string. -/
def hasSentinel (payload : AlphaVantagePayload) : Prop :=
  (∃ m, strField payload "Note" = some m ∧ 0 < m.length) ∨
  (∃ m, strField payload "Error Message" = some m ∧ 0 < m.length) ∨
  (∃ m, strField payload "Information" = some m ∧ 0 < m.length)

/-- The message is one of the payload's non-empty sentinel values. -/
def isSentinelMessageOf (msg : String) (payload : AlphaVantagePayload) :
    Prop :=
  0 < msg.length ∧
    (strField payload "Note" = some msg ∨
     strField payload "Error Message" = some msg ∨
     strField payload "Information" = some msg)

theorem nonEmptyStrField_eq_some {payload : AlphaVantagePayload}
    {key m : String} (h : strField payload key = some m)
    (hlen : 0 < m.length) : nonEmptyStrField payload key = some m := by
  unfold nonEmptyStrField
  rw [h]
  simp [Nat.pos_iff_ne_zero] at hlen ⊢
  omega

theorem nonEmptyStrField_some {payload : AlphaVantagePayload}
    {key m : String} (h : nonEmptyStrField payload key = some m) :
    strField payload key = some m ∧ 0 < m.length := by
  unfold nonEmptyStrField at h
  rcases hf : strField payload key with _ | s
  · simp only [hf] at h
    cases h
  · simp only [hf] at h
    by_cases hl : s.length > 0
    · rw [if_pos hl] at h
      cases h
      exact ⟨rfl, hl⟩
    · rw [if_neg hl] at h
      exact absurd h (by simp)

theorem sentinelError_of_hasSentinel {payload : AlphaVantagePayload}
    (h : hasSentinel payload) :
    ∃ msg, sentinelError payload = some msg ∧
      isSentinelMessageOf msg payload := by
  unfold sentinelError
  rcases hN : nonEmptyStrField payload "Note" with _ | m
  · rcases hE : nonEmptyStrField payload "Error Message" with _ | m
    · rcases hI : nonEmptyStrField payload "Information" with _ | m
      · exfalso
        rcases h with ⟨m, hf, hl⟩ | ⟨m, hf, hl⟩ | ⟨m, hf, hl⟩
        · rw [nonEmptyStrField_eq_some hf hl] at hN; cases hN
        · rw [nonEmptyStrField_eq_some hf hl] at hE; cases hE
        · rw [nonEmptyStrField_eq_some hf hl] at hI; cases hI
      · have := nonEmptyStrField_some hI
        exact ⟨m, rfl, this.2, Or.inr (Or.inr this.1)⟩
    · have := nonEmptyStrField_some hE
      exact ⟨m, rfl, this.2, Or.inr (Or.inl this.1)⟩
  · have := nonEmptyStrField_some hN
    exact ⟨m, rfl, this.2, Or.inl this.1⟩

/-- C2: an upstream body received with HTTP success that carries any
non-empty sentinel field (`Note`, `"Error Message"`, `Information`) makes
`fetchAlphaVantage` fail with an `AlphaVantageError` carrying one of those
sentinel messages, never returning the body as data — and this holds for an
arbitrary request parameter list, i.e. uniformly for every endpoint kind. -/
theorem fetchAlphaVantage_sentinel_rejects (enabled : Bool)
    (upstream : Upstream) (now : Int) (cache : DiskCache)
    (params : List (String × String)) (payload : AlphaVantagePayload)
    (hmiss : (readFromDiskCache enabled now cache (cacheKey params)
      DISK_CACHE_TTL_MS).1 = none)
    (hup : upstream params = .success payload)
    (hsent : hasSentinel payload) :
    ∃ msg, isSentinelMessageOf msg payload ∧
      (fetchAlphaVantage enabled upstream now cache params).1 =
        .error msg := by
  obtain ⟨msg, hse, hmsg⟩ := sentinelError_of_hasSentinel hsent
  refine ⟨msg, hmsg, ?_⟩
  unfold fetchAlphaVantage
  simp only [hmiss, hup, hse]

/-- Witness for C2: HTTP 200 body with a non-empty `Note` on a quote
request against an empty cache is rejected with the note's message. -/
theorem fetchAlphaVantage_sentinel_rejects_witness :
    ∃ msg, isSentinelMessageOf msg [("Note", .str "rate limited")] ∧
      (fetchAlphaVantage true
        (fun _ => .success [("Note", .str "rate limited")]) 0 []
        [("function", "GLOBAL_QUOTE"), ("symbol", "TSLA")]).1 =
      .error msg :=
  fetchAlphaVantage_sentinel_rejects true
    (fun _ => .success [("Note", .str "rate limited")]) 0 []
    [("function", "GLOBAL_QUOTE"), ("symbol", "TSLA")]
    [("Note", .str "rate limited")] rfl rfl
    (Or.inl ⟨"rate limited", rfl, by decide⟩)

end StockApp

namespace StockApp

/-- C1 (counterexample): with an empty disk cache, a fetch whose HTTP-200
payload carries a non-empty `Note` sentinel DOES change the cache for the
request's key — the payload is written before the sentinel check — and a
read within the TTL observes exactly that sentinel-error payload. -/
theorem fetchAlphaVantage_sentinel_cache_counterexample :
    (fetchAlphaVantage true
      (fun _ => .success [("Note", .str "rate limited")]) 0 []
      [("function", "GLOBAL_QUOTE"), ("symbol", "TSLA")]).2 =
      [(cacheKey [("function", "GLOBAL_QUOTE"), ("symbol", "TSLA")],
        ⟨0, [("Note", .str "rate limited")]⟩)] ∧
    (fetchAlphaVantage true
      (fun _ => .success [("Note", .str "rate limited")]) 0 []
      [("function", "GLOBAL_QUOTE"), ("symbol", "TSLA")]).2 ≠ [] ∧
    (readFromDiskCache true 1000
      (fetchAlphaVantage true
        (fun _ => .success [("Note", .str "rate limited")]) 0 []
        [("function", "GLOBAL_QUOTE"), ("symbol", "TSLA")]).2
      (cacheKey [("function", "GLOBAL_QUOTE"), ("symbol", "TSLA")])
      DISK_CACHE_TTL_MS).1 =
      some ⟨0, [("Note", .str "rate limited")]⟩ ∧
    sentinelError [("Note", .str "rate limited")] = some "rate limited" :=
  ⟨rfl, List.cons_ne_nil _ _, rfl, rfl⟩

/-- C1 (amended): `fetchAlphaVantage` never RETURNS a sentinel-error payload
as data (the sentinel check runs on cached payloads too), but on a cache
miss it writes the fetched payload to the cache unconditionally, before the
sentinel check — so a sentinel-rejected fetch still updates the cache with
the sentinel payload, which a later read within the TTL can observe. -/
theorem fetchAlphaVantage_cache_on_sentinel :
    (∀ (enabled : Bool) (upstream : Upstream) (now : Int) (cache : DiskCache)
        (params : List (String × String))
        (r : CachedResult AlphaVantagePayload) (cache' : DiskCache),
      fetchAlphaVantage enabled upstream now cache params = (.ok r, cache') →
      sentinelError r.data = none) ∧
    (∀ (enabled : Bool) (upstream : Upstream) (now : Int) (cache : DiskCache)
        (params : List (String × String)) (payload : AlphaVantagePayload)
        (msg : String),
      (readFromDiskCache enabled now cache (cacheKey params)
        DISK_CACHE_TTL_MS).1 = none →
      upstream params = .success payload →
      sentinelError payload = some msg →
      fetchAlphaVantage enabled upstream now cache params =
        (.error msg,
         writeToDiskCache enabled now
           (readFromDiskCache enabled now cache (cacheKey params)
             DISK_CACHE_TTL_MS).2
           (cacheKey params) payload)) := by
  constructor
  · intro enabled upstream now cache params r cache' h
    simp only [fetchAlphaVantage] at h
    rcases hc : (readFromDiskCache enabled now cache (cacheKey params)
        DISK_CACHE_TTL_MS).1 with _ | c
    · simp only [hc] at h
      rcases hu : upstream params with ⟨status, statusText⟩ | payload
      · simp only [hu] at h
        injection h with h1 h2
        injection h1
      · simp only [hu] at h
        rcases hs : sentinelError payload with _ | m
        · simp only [hs] at h
          injection h with h1 h2
          injection h1 with h3
          subst h3
          exact hs
        · simp only [hs] at h
          injection h with h1 h2
          injection h1
    · simp only [hc] at h
      rcases hs : sentinelError c.data with _ | m
      · simp only [hs] at h
        injection h with h1 h2
        injection h1 with h3
        subst h3
        exact hs
      · simp only [hs] at h
        injection h with h1 h2
        injection h1
  · intro enabled upstream now cache params payload msg hmiss hup hse
    unfold fetchAlphaVantage
    simp only [hmiss, hup, hse]

/-- Witness for C1 (amended): both conjuncts applied at concrete inputs —
a clean payload is returned sentinel-free, and a `Note` payload is written
to the empty cache while the call errors. -/
theorem fetchAlphaVantage_cache_on_sentinel_witness :
    sentinelError [("k", JVal.str "v")] = none ∧
    fetchAlphaVantage true
      (fun _ => .success [("Note", .str "rate limited")]) 0 []
      [("function", "GLOBAL_QUOTE"), ("symbol", "TSLA")] =
      (.error "rate limited",
       writeToDiskCache true 0 []
         (cacheKey [("function", "GLOBAL_QUOTE"), ("symbol", "TSLA")])
         [("Note", .str "rate limited")]) :=
  ⟨fetchAlphaVantage_cache_on_sentinel.1 true
      (fun _ => .success [("k", JVal.str "v")]) 0 [] [("x", "y")]
      ⟨[("k", JVal.str "v")], 0⟩
      (fetchAlphaVantage true (fun _ => .success [("k", JVal.str "v")]) 0 []
        [("x", "y")]).2 rfl,
   fetchAlphaVantage_cache_on_sentinel.2 true
      (fun _ => .success [("Note", .str "rate limited")]) 0 []
      [("function", "GLOBAL_QUOTE"), ("symbol", "TSLA")]
      [("Note", .str "rate limited")] "rate limited" rfl rfl rfl⟩

end StockApp

namespace StockApp

/-- C6: if the `TIME_SERIES_DAILY` fetch fails with a message containing
"premium endpoint" (case-insensitively), `fetchDailySeriesPayload` retries
exactly once against `TIME_SERIES_DAILY_ADJUSTED` and returns that call's
outcome — in particular a successful adjusted fetch is returned without
surfacing the first failure; any failure whose message lacks the substring
is propagated unchanged with no retry. -/
theorem fetchDailySeriesPayload_premium_fallback :
    (∀ (enabled : Bool) (upstream : Upstream) (now : Int) (cache : DiskCache)
        (symbol msg : String),
      (fetchAlphaVantage enabled upstream now cache
        [("function", "TIME_SERIES_DAILY"), ("symbol", symbol),
         ("outputsize", "compact")]).1 = .error msg →
      isPremiumEndpointMessage msg = true →
      fetchDailySeriesPayload enabled upstream now cache symbol =
        fetchAlphaVantage enabled upstream now
          (fetchAlphaVantage enabled upstream now cache
            [("function", "TIME_SERIES_DAILY"), ("symbol", symbol),
             ("outputsize", "compact")]).2
          [("function", "TIME_SERIES_DAILY_ADJUSTED"), ("symbol", symbol),
           ("outputsize", "compact")]) ∧
    (∀ (enabled : Bool) (upstream : Upstream) (now : Int) (cache : DiskCache)
        (symbol msg : String),
      (fetchAlphaVantage enabled upstream now cache
        [("function", "TIME_SERIES_DAILY"), ("symbol", symbol),
         ("outputsize", "compact")]).1 = .error msg →
      isPremiumEndpointMessage msg = false →
      fetchDailySeriesPayload enabled upstream now cache symbol =
        (.error msg,
         (fetchAlphaVantage enabled upstream now cache
           [("function", "TIME_SERIES_DAILY"), ("symbol", symbol),
            ("outputsize", "compact")]).2)) := by
  constructor
  · intro enabled upstream now cache symbol msg hstd hprem
    unfold fetchDailySeriesPayload
    rcases hp : fetchAlphaVantage enabled upstream now cache
        [("function", "TIME_SERIES_DAILY"), ("symbol", symbol),
         ("outputsize", "compact")] with ⟨r1, cache1⟩
    rw [hp] at hstd
    simp only at hstd
    subst hstd
    simp [hprem]
  · intro enabled upstream now cache symbol msg hstd hprem
    unfold fetchDailySeriesPayload
    rcases hp : fetchAlphaVantage enabled upstream now cache
        [("function", "TIME_SERIES_DAILY"), ("symbol", symbol),
         ("outputsize", "compact")] with ⟨r1, cache1⟩
    rw [hp] at hstd
    simp only at hstd
    subst hstd
    simp [hprem]

/-- Witness for C6: a premium-endpoint failure on the standard endpoint is
retried against the adjusted endpoint and succeeds with the adjusted
payload; a non-premium failure propagates unchanged. -/
theorem fetchDailySeriesPayload_premium_fallback_witness :
    (fetchDailySeriesPayload false
      (fun params =>
        if params.lookup "function" == some "TIME_SERIES_DAILY" then
          .success [("Information", .str "This is a premium endpoint.")]
        else .success [("ok", .str "1")])
      0 [] "TSLA" =
      fetchAlphaVantage false
        (fun params =>
          if params.lookup "function" == some "TIME_SERIES_DAILY" then
            .success [("Information", .str "This is a premium endpoint.")]
          else .success [("ok", .str "1")])
        0
        (fetchAlphaVantage false
          (fun params =>
            if params.lookup "function" == some "TIME_SERIES_DAILY" then
              .success [("Information", .str "This is a premium endpoint.")]
            else .success [("ok", .str "1")])
          0 []
          [("function", "TIME_SERIES_DAILY"), ("symbol", "TSLA"),
           ("outputsize", "compact")]).2
        [("function", "TIME_SERIES_DAILY_ADJUSTED"), ("symbol", "TSLA"),
         ("outputsize", "compact")]) ∧
    (fetchDailySeriesPayload false
      (fun params =>
        if params.lookup "function" == some "TIME_SERIES_DAILY" then
          .success [("Information", .str "This is a premium endpoint.")]
        else .success [("ok", .str "1")])
      0 [] "TSLA").1 = .ok ⟨[("ok", .str "1")], 0⟩ ∧
    (fetchDailySeriesPayload false
      (fun _ => .success [("Note", .str "call quota exceeded")])
      0 [] "GD").1 = .error "call quota exceeded" :=
  ⟨fetchDailySeriesPayload_premium_fallback.1 false
      (fun params =>
        if params.lookup "function" == some "TIME_SERIES_DAILY" then
          .success [("Information", .str "This is a premium endpoint.")]
        else .success [("ok", .str "1")])
      0 [] "TSLA" "This is a premium endpoint." rfl (by decide),
   rfl,
   by
    rw [(fetchDailySeriesPayload_premium_fallback.2 false
      (fun _ => .success [("Note", .str "call quota exceeded")])
      0 [] "GD" "call quota exceeded" rfl (by decide))]⟩

end StockApp

namespace StockApp

/-- C9: `fetchStockData` combines the three independently settled fetches so
that each successful section is carried regardless of the other outcomes,
and a rejected section is reported only as that section's failure — in
particular, when the overview fetch fails while quote and series succeed,
the page data carries both successful values, reports the overview error,
and sets no page-critical error. -/
theorem fetchStockData_partial_failure :
    (∀ (q : SettledResult (CachedResult StockQuote))
        (s : SettledResult (CachedResult (List DailySeriesPoint)))
        (o : SettledResult (CachedResult CompanyOverview))
        (v : CachedResult StockQuote),
      q = .fulfilled v →
      (fetchStockData q s o).quote = some v.data ∧
      (fetchStockData q s o).quoteCachedAt = some v.cachedAt) ∧
    (∀ q s o (v : CachedResult (List DailySeriesPoint)),
      s = .fulfilled v →
      (fetchStockData q s o).series = v.data ∧
      (fetchStockData q s o).seriesCachedAt = some v.cachedAt) ∧
    (∀ q s o (v : CachedResult CompanyOverview),
      o = .fulfilled v →
      (fetchStockData q s o).overview = some v.data ∧
      (fetchStockData q s o).overviewError = none) ∧
    (∀ q s o (r : String),
      o = .rejected r →
      (fetchStockData q s o).overview = none ∧
      (fetchStockData q s o).overviewError = some r) ∧
    (∀ (qv : CachedResult StockQuote)
        (sv : CachedResult (List DailySeriesPoint)) (r : String),
      fetchStockData (.fulfilled qv) (.fulfilled sv) (.rejected r) =
        ⟨some qv.data, some qv.cachedAt, sv.data, some sv.cachedAt,
         none, none, some r, none⟩) := by
  refine ⟨?_, ?_, ?_, ?_, ?_⟩
  · intro q s o v h
    subst h
    exact ⟨rfl, rfl⟩
  · intro q s o v h
    subst h
    exact ⟨rfl, rfl⟩
  · intro q s o v h
    subst h
    exact ⟨rfl, rfl⟩
  · intro q s o r h
    subst h
    exact ⟨rfl, rfl⟩
  · intro qv sv r
    rfl

/-- Witness for C9 at Scenario B: overview rejected with an HTTP 500
message, quote and series fulfilled. -/
theorem fetchStockData_partial_failure_witness :
    fetchStockData
      (.fulfilled ⟨⟨"GD", ⟨1, 0⟩, ⟨2, 0⟩, ⟨1, 0⟩, ⟨2, 0⟩, ⟨1, 0⟩, ⟨1, 0⟩,
        ⟨5, -1⟩, "2024-01-05", none⟩, 7⟩)
      (.fulfilled ⟨[⟨"2024-01-05", ⟨1, 0⟩, ⟨2, 0⟩, ⟨1, 0⟩, ⟨2, 0⟩, none⟩], 8⟩)
      (.rejected "Alpha Vantage responded with 500: Internal Server Error") =
      ⟨some ⟨"GD", ⟨1, 0⟩, ⟨2, 0⟩, ⟨1, 0⟩, ⟨2, 0⟩, ⟨1, 0⟩, ⟨1, 0⟩,
        ⟨5, -1⟩, "2024-01-05", none⟩, some 7,
       [⟨"2024-01-05", ⟨1, 0⟩, ⟨2, 0⟩, ⟨1, 0⟩, ⟨2, 0⟩, none⟩], some 8,
       none, none,
       some "Alpha Vantage responded with 500: Internal Server Error",
       none⟩ ∧
    (fetchStockData
      (.fulfilled ⟨⟨"GD", ⟨1, 0⟩, ⟨2, 0⟩, ⟨1, 0⟩, ⟨2, 0⟩, ⟨1, 0⟩, ⟨1, 0⟩,
        ⟨5, -1⟩, "2024-01-05", none⟩, 7⟩)
      (.fulfilled ⟨[⟨"2024-01-05", ⟨1, 0⟩, ⟨2, 0⟩, ⟨1, 0⟩, ⟨2, 0⟩, none⟩], 8⟩)
      (.rejected "Alpha Vantage responded with 500: Internal Server Error")).quote =
      some ⟨"GD", ⟨1, 0⟩, ⟨2, 0⟩, ⟨1, 0⟩, ⟨2, 0⟩, ⟨1, 0⟩, ⟨1, 0⟩,
        ⟨5, -1⟩, "2024-01-05", none⟩ :=
  ⟨fetchStockData_partial_failure.2.2.2.2
      ⟨⟨"GD", ⟨1, 0⟩, ⟨2, 0⟩, ⟨1, 0⟩, ⟨2, 0⟩, ⟨1, 0⟩, ⟨1, 0⟩,
        ⟨5, -1⟩, "2024-01-05", none⟩, 7⟩
      ⟨[⟨"2024-01-05", ⟨1, 0⟩, ⟨2, 0⟩, ⟨1, 0⟩, ⟨2, 0⟩, none⟩], 8⟩
      "Alpha Vantage responded with 500: Internal Server Error",
   (fetchStockData_partial_failure.1 _ _ _
      ⟨⟨"GD", ⟨1, 0⟩, ⟨2, 0⟩, ⟨1, 0⟩, ⟨2, 0⟩, ⟨1, 0⟩, ⟨1, 0⟩,
        ⟨5, -1⟩, "2024-01-05", none⟩, 7⟩ rfl).1⟩

end StockApp

namespace StockApp

theorem withMockFallback_of_mocks {T : Type} (env : Env)
    (fetcher : Except String T) (mockProvider : T)
    (h : shouldUseMocks env = true) :
    withMockFallback env fetcher mockProvider =
      ⟨mockProvider, .mock⟩ := by
  unfold withMockFallback
  rw [h]
  simp

/-- C8: whenever the use-mocks flag is set or no API credential is
configured (`shouldUseMocks`), the overview and daily-series getters return
the statically embedded mock table entry for every supported ticker,
regardless of what the network fetcher would have produced (it is never
consulted, so no network call is issued). -/
theorem mock_fallback_uses_static_mocks (env : Env)
    (henv : shouldUseMocks env = true) (symbol : String)
    (hsym : symbol ∈ STOCK_TICKERS)
    (f : Except String MockCompanyOverview)
    (g : Except String (List DailyPrice)) :
    companyOverviewQueryFn env f symbol = getMockOverview symbol ∧
    dailySeriesQueryFn env g symbol = getMockDailySeries symbol ∧
    companyOverviewBySymbol.lookup symbol = some (getMockOverview symbol) ∧
    timeSeriesDailyBySymbol.lookup symbol = some (getMockDailySeries symbol) := by
  refine ⟨?_, ?_, ?_, ?_⟩
  · show (withMockFallback env f (getMockOverview symbol)).data = _
    rw [withMockFallback_of_mocks env f _ henv]
  · show (withMockFallback env g (getMockDailySeries symbol)).data = _
    rw [withMockFallback_of_mocks env g _ henv]
  · fin_cases hsym <;> rfl
  · fin_cases hsym <;> rfl

/-- Witness for C8 at Scenario C: no API credential, ticker `CRWV`, a
fetcher that would fail — the mock overview and series are returned. -/
theorem mock_fallback_uses_static_mocks_witness :
    companyOverviewQueryFn (makeEnv none none) (.error "network unreachable")
      "CRWV" = getMockOverview "CRWV" ∧
    dailySeriesQueryFn (makeEnv none none) (.error "network unreachable")
      "CRWV" = getMockDailySeries "CRWV" ∧
    companyOverviewBySymbol.lookup "CRWV" = some (getMockOverview "CRWV") ∧
    timeSeriesDailyBySymbol.lookup "CRWV" = some (getMockDailySeries "CRWV") :=
  mock_fallback_uses_static_mocks (makeEnv none none) (by decide) "CRWV"
    (by decide) (.error "network unreachable") (.error "network unreachable")

end StockApp

namespace StockApp

def exceptIsOk {e a : Type} : Except e a → Bool
  | .ok _ => true
  | .error _ => false

theorem exBind_ok {e a b : Type} (v : a) (f : a → Except e b) :
    (Except.ok v >>= f) = f v := rfl

theorem exBind_error {e a b : Type} (msg : e) (f : a → Except e b) :
    ((Except.error msg : Except e a) >>= f) = .error msg := rfl

theorem exMap_ok {e a b : Type} (g : a → b) (v : a) :
    (g <$> (Except.ok v : Except e a)) = .ok (g v) := rfl

theorem exMap_error {e a b : Type} (g : a → b) (msg : e) :
    (g <$> (Except.error msg : Except e a)) = (.error msg : Except e b) := rfl

/-- The required-field condition of the quote normalizer, read off the parse
helpers: all eight required fields must parse (seven numeric/percent fields
finite, the trading-day string non-blank); volume is deliberately absent
from this condition. -/
def requiredQuoteFieldsOk (d : JVal) : Bool :=
  (parseNumber (jGetStr d "02. open")).isSome &&
  (parseNumber (jGetStr d "03. high")).isSome &&
  (parseNumber (jGetStr d "04. low")).isSome &&
  (parseNumber (jGetStr d "05. price")).isSome &&
  (parseNumber (jGetStr d "08. previous close")).isSome &&
  (parseNumber (jGetStr d "09. change")).isSome &&
  (parsePercent (jGetStr d "10. change percent")).isSome &&
  (match jGetStr d "07. latest trading day" with
   | some v => !((jsTrim v).length == 0)
   | none => false)

/-- C7: the quote normalizer succeeds exactly when every required field
(open, high, low, price, previous close, change, change percent, latest
trading day) is present and parses; a missing or unparseable volume never
fails it — on success the volume is exactly `parseInteger` of the raw
field, hence absent when the field is absent or unparseable. -/
theorem parseGlobalQuote_required_fields (symbol : String)
    (payload : AlphaVantagePayload) (fields : List (String × JVal))
    (hq : payload.lookup "Global Quote" = some (.obj fields)) :
    exceptIsOk (parseGlobalQuote symbol payload) =
      requiredQuoteFieldsOk (.obj fields) ∧
    (∀ q, parseGlobalQuote symbol payload = .ok q →
      q.volume = parseInteger (jGetStr (.obj fields) "06. volume")) := by
  unfold parseGlobalQuote requiredQuoteFieldsOk
  rw [hq]
  simp only [requireNumber, requireDate]
  rcases parseNumber (jGetStr (JVal.obj fields) "02. open") with _ | o
  · simp [exceptIsOk, exBind_error]
  · rcases parseNumber (jGetStr (JVal.obj fields) "03. high") with _ | hi
    · simp [exceptIsOk, exBind_ok, exBind_error]
    · rcases parseNumber (jGetStr (JVal.obj fields) "04. low") with _ | lo
      · simp [exceptIsOk, exBind_ok, exBind_error]
      · rcases parseNumber (jGetStr (JVal.obj fields) "05. price") with _ | pr
        · simp [exceptIsOk, exBind_ok, exBind_error]
        · rcases parseNumber (jGetStr (JVal.obj fields) "08. previous close")
              with _ | pc
          · simp [exceptIsOk, exBind_ok, exBind_error]
          · rcases parseNumber (jGetStr (JVal.obj fields) "09. change")
                with _ | ch
            · simp [exceptIsOk, exBind_ok, exBind_error]
            · rcases parsePercent (jGetStr (JVal.obj fields)
                  "10. change percent") with _ | cp
              · simp [exceptIsOk, exBind_ok, exBind_error, exMap_ok,
                  exMap_error]
              · rcases jGetStr (JVal.obj fields) "07. latest trading day"
                    with _ | ltd
                · simp [exceptIsOk, exBind_ok, exBind_error, exMap_ok,
                    exMap_error]
                · by_cases hl : ((jsTrim ltd).length == 0) = true
                  · constructor
                    · simp [exceptIsOk, exBind_ok, exBind_error, exMap_ok,
                        exMap_error, hl]
                    · intro q hq'
                      simp [exBind_ok, exBind_error, exMap_ok, hl] at hq'
                  · constructor
                    · simp [exceptIsOk, exBind_ok, exBind_error, exMap_ok,
                        exMap_error, hl]
                    · intro q hq'
                      simp only [exBind_ok, if_neg hl, exMap_ok] at hq'
                      rcases hq' with ⟨rfl⟩
                      rfl

/-- Witness for C7 at the spec's P5 example: a payload missing
`"05. price"` fails; one missing only `"06. volume"` succeeds with absent
volume. -/
theorem parseGlobalQuote_required_fields_witness :
    (exceptIsOk (parseGlobalQuote "TSLA"
      [("Global Quote", .obj
        [("02. open", .str "1"), ("03. high", .str "2"),
         ("04. low", .str "0.5"), ("08. previous close", .str "1.4"),
         ("09. change", .str "0.1"), ("10. change percent", .str "7.14%"),
         ("07. latest trading day", .str "2024-01-05")])]) =
      requiredQuoteFieldsOk (.obj
        [("02. open", .str "1"), ("03. high", .str "2"),
         ("04. low", .str "0.5"), ("08. previous close", .str "1.4"),
         ("09. change", .str "0.1"), ("10. change percent", .str "7.14%"),
         ("07. latest trading day", .str "2024-01-05")])) ∧
    exceptIsOk (parseGlobalQuote "TSLA"
      [("Global Quote", .obj
        [("02. open", .str "1"), ("03. high", .str "2"),
         ("04. low", .str "0.5"), ("08. previous close", .str "1.4"),
         ("09. change", .str "0.1"), ("10. change percent", .str "7.14%"),
         ("07. latest trading day", .str "2024-01-05")])]) = false ∧
    (∀ q, parseGlobalQuote "TSLA"
      [("Global Quote", .obj
        [("02. open", .str "1"), ("03. high", .str "2"),
         ("04. low", .str "0.5"), ("05. price", .str "1.5"),
         ("08. previous close", .str "1.4"), ("09. change", .str "0.1"),
         ("10. change percent", .str "7.14%"),
         ("07. latest trading day", .str "2024-01-05")])] = .ok q →
      q.volume = none) ∧
    parseGlobalQuote "TSLA"
      [("Global Quote", .obj
        [("02. open", .str "1"), ("03. high", .str "2"),
         ("04. low", .str "0.5"), ("05. price", .str "1.5"),
         ("08. previous close", .str "1.4"), ("09. change", .str "0.1"),
         ("10. change percent", .str "7.14%"),
         ("07. latest trading day", .str "2024-01-05")])] =
      .ok { symbol := "TSLA", open_ := ⟨1, 0⟩, high := ⟨2, 0⟩,
            low := ⟨5, -1⟩, price := ⟨15, -1⟩, previousClose := ⟨14, -1⟩,
            change := ⟨1, -1⟩, changePercent := ⟨714, -2⟩,
            latestTradingDay := "2024-01-05", volume := none } :=
  ⟨(parseGlobalQuote_required_fields "TSLA"
      [("Global Quote", .obj
        [("02. open", .str "1"), ("03. high", .str "2"),
         ("04. low", .str "0.5"), ("08. previous close", .str "1.4"),
         ("09. change", .str "0.1"), ("10. change percent", .str "7.14%"),
         ("07. latest trading day", .str "2024-01-05")])]
      [("02. open", .str "1"), ("03. high", .str "2"),
       ("04. low", .str "0.5"), ("08. previous close", .str "1.4"),
       ("09. change", .str "0.1"), ("10. change percent", .str "7.14%"),
       ("07. latest trading day", .str "2024-01-05")] rfl).1,
   by decide,
   fun q hq => by
    rw [(parseGlobalQuote_required_fields "TSLA"
      [("Global Quote", .obj
        [("02. open", .str "1"), ("03. high", .str "2"),
         ("04. low", .str "0.5"), ("05. price", .str "1.5"),
         ("08. previous close", .str "1.4"), ("09. change", .str "0.1"),
         ("10. change percent", .str "7.14%"),
         ("07. latest trading day", .str "2024-01-05")])]
      [("02. open", .str "1"), ("03. high", .str "2"),
       ("04. low", .str "0.5"), ("05. price", .str "1.5"),
       ("08. previous close", .str "1.4"), ("09. change", .str "0.1"),
       ("10. change percent", .str "7.14%"),
       ("07. latest trading day", .str "2024-01-05")] rfl).2 q hq]
    decide,
   by decide⟩

end StockApp

namespace StockApp

/-- The raw volume string of a per-day record: `"6. volume"` with fallback
to `"5. volume"`, kept only when it is a string. -/
def dailyVolumeRaw (values : JVal) : Option String :=
  match (jGet values "6. volume").orElse (fun _ => jGet values "5. volume") with
  | some (.str s) => some s
  | _ => none

theorem mapDaily_error_of_mem (sym : String) :
    ∀ (entries : List (String × JVal)) (d : String) (v : JVal) (e : String),
      (d, v) ∈ entries → parseDailyPoint sym d v = .error e →
      ∃ e', mapDaily sym entries = .error e'
  | [], _, _, _, hmem, _ => absurd hmem (List.not_mem_nil _)
  | (d0, v0) :: tl, d, v, e, hmem, hpt => by
    rcases List.mem_cons.mp hmem with heq | hmem'
    · cases heq
      exact ⟨e, by simp [mapDaily, hpt, exBind_error]⟩
    · rcases h0 : parseDailyPoint sym d0 v0 with e0 | p0
      · exact ⟨e0, by simp [mapDaily, h0, exBind_error]⟩
      · obtain ⟨e', he'⟩ := mapDaily_error_of_mem sym tl d v e hmem' hpt
        exact ⟨e', by simp [mapDaily, h0, he', exBind_ok, exBind_error]⟩

/-- C4: the per-day rule of the daily-series normalizer.  (A) an absent or
non-numeric close makes the day's callback return `null` (the day is
dropped); (B) when close parses and open/high/low parse, the day is kept,
with volume optional (`parseInteger` of the raw volume string, `none` when
absent or unparseable); (C) when close parses but open, high or low is
absent/non-numeric, the callback throws, which (D) aborts the whole map —
the entire normalization fails; and (E) a dropped day leaves the points of
the remaining days unchanged: normalization proceeds without it. -/
theorem parseDailyPoint_per_day_rule (sym : String) :
    (∀ (d : String) (v : JVal),
      parseNumber (jGetStr v "4. close") = none →
      parseDailyPoint sym d v = .ok none) ∧
    (∀ (d : String) (v : JVal) (c o h l : JsNum),
      parseNumber (jGetStr v "4. close") = some c →
      parseNumber (jGetStr v "1. open") = some o →
      parseNumber (jGetStr v "2. high") = some h →
      parseNumber (jGetStr v "3. low") = some l →
      parseDailyPoint sym d v =
        .ok (some ⟨d, o, h, l, c, parseInteger (dailyVolumeRaw v)⟩)) ∧
    (∀ (d : String) (v : JVal) (c : JsNum),
      parseNumber (jGetStr v "4. close") = some c →
      (parseNumber (jGetStr v "1. open") = none ∨
       parseNumber (jGetStr v "2. high") = none ∨
       parseNumber (jGetStr v "3. low") = none) →
      ∃ e, parseDailyPoint sym d v = .error e) ∧
    (∀ (entries : List (String × JVal)) (d : String) (v : JVal) (e : String),
      (d, v) ∈ entries → parseDailyPoint sym d v = .error e →
      ∃ e', mapDaily sym entries = .error e') ∧
    (∀ (d : String) (v : JVal) (rest : List (String × JVal)),
      parseDailyPoint sym d v = .ok none →
      Except.map (List.filterMap id) (mapDaily sym ((d, v) :: rest)) =
        Except.map (List.filterMap id) (mapDaily sym rest)) := by
  refine ⟨?_, ?_, ?_, mapDaily_error_of_mem sym, ?_⟩
  · intro d v h
    simp [parseDailyPoint, h]
  · intro d v c o h l hc ho hh hl
    simp [parseDailyPoint, dailyVolumeRaw, hc, ho, hh, hl, requireNumber,
      exBind_ok]
  · intro d v c hc hfail
    rcases hfail with h1 | h1 | h1
    · simp only [parseDailyPoint, hc, requireNumber, h1, exBind_error]
      exact ⟨_, rfl⟩
    · rcases ho : parseNumber (jGetStr v "1. open") with _ | o
      · simp only [parseDailyPoint, hc, requireNumber, ho, exBind_error]
        exact ⟨_, rfl⟩
      · simp only [parseDailyPoint, hc, requireNumber, ho, h1, exBind_ok,
          exBind_error]
        exact ⟨_, rfl⟩
    · rcases ho : parseNumber (jGetStr v "1. open") with _ | o
      · simp only [parseDailyPoint, hc, requireNumber, ho, exBind_error]
        exact ⟨_, rfl⟩
      · rcases hh : parseNumber (jGetStr v "2. high") with _ | h2
        · simp only [parseDailyPoint, hc, requireNumber, ho, hh, exBind_ok,
            exBind_error]
          exact ⟨_, rfl⟩
        · simp only [parseDailyPoint, hc, requireNumber, ho, hh, h1,
            exBind_ok, exBind_error]
          exact ⟨_, rfl⟩
  · intro d v rest h
    rcases hm : mapDaily sym rest with e0 | ps
    · simp [mapDaily, h, hm, exBind_ok, exBind_error, Except.map]
    · simp [mapDaily, h, hm, exBind_ok, exBind_error, Except.map]

/-- Witness for C4, one concrete instance per branch of the rule: a bad
close is dropped; a full day with missing volume is kept with absent
volume; a parseable close with a missing open fails the day and with it the
whole map; a dropped day leaves the remaining days' points unchanged. -/
theorem parseDailyPoint_per_day_rule_witness :
    parseDailyPoint "TSLA" "2024-01-02"
      (.obj [("4. close", .str "oops")]) = .ok none ∧
    parseDailyPoint "TSLA" "2024-01-03"
      (.obj [("1. open", .str "1"), ("2. high", .str "2"),
             ("3. low", .str "0.5"), ("4. close", .str "1.5")]) =
      .ok (some ⟨"2024-01-03", ⟨1, 0⟩, ⟨2, 0⟩, ⟨5, -1⟩, ⟨15, -1⟩, none⟩) ∧
    (∃ e, parseDailyPoint "TSLA" "2024-01-04"
      (.obj [("4. close", .str "1.5")]) = .error e) ∧
    (∃ e', mapDaily "TSLA"
      [("2024-01-04", .obj [("4. close", .str "1.5")])] = .error e') ∧
    Except.map (List.filterMap id) (mapDaily "TSLA"
      [("2024-01-02", .obj [("4. close", .str "oops")]),
       ("2024-01-03", .obj [("1. open", .str "1"), ("2. high", .str "2"),
         ("3. low", .str "0.5"), ("4. close", .str "1.5")])]) =
      Except.map (List.filterMap id) (mapDaily "TSLA"
        [("2024-01-03", .obj [("1. open", .str "1"), ("2. high", .str "2"),
          ("3. low", .str "0.5"), ("4. close", .str "1.5")])]) :=
  ⟨(parseDailyPoint_per_day_rule "TSLA").1 "2024-01-02"
      (.obj [("4. close", .str "oops")]) (by decide),
   (parseDailyPoint_per_day_rule "TSLA").2.1 "2024-01-03"
      (.obj [("1. open", .str "1"), ("2. high", .str "2"),
             ("3. low", .str "0.5"), ("4. close", .str "1.5")])
      ⟨15, -1⟩ ⟨1, 0⟩ ⟨2, 0⟩ ⟨5, -1⟩ (by decide) (by decide) (by decide)
      (by decide),
   (parseDailyPoint_per_day_rule "TSLA").2.2.1 "2024-01-04"
      (.obj [("4. close", .str "1.5")]) ⟨15, -1⟩ (by decide)
      (Or.inl (by decide)),
   by
    obtain ⟨e, he⟩ := (parseDailyPoint_per_day_rule "TSLA").2.2.1
      "2024-01-04" (.obj [("4. close", .str "1.5")]) ⟨15, -1⟩ (by decide)
      (Or.inl (by decide))
    exact (parseDailyPoint_per_day_rule "TSLA").2.2.2.1
      [("2024-01-04", .obj [("4. close", .str "1.5")])]
      "2024-01-04" (.obj [("4. close", .str "1.5")]) e
      (List.mem_singleton.mpr rfl) he,
   (parseDailyPoint_per_day_rule "TSLA").2.2.2.2 "2024-01-02"
      (.obj [("4. close", .str "oops")])
      [("2024-01-03", .obj [("1. open", .str "1"), ("2. high", .str "2"),
        ("3. low", .str "0.5"), ("4. close", .str "1.5")])]
      ((parseDailyPoint_per_day_rule "TSLA").1 "2024-01-02"
        (.obj [("4. close", .str "oops")]) (by decide))⟩

end StockApp

namespace StockApp

theorem parseDailyPoint_close_none (sym d : String) (v : JVal)
    (h : parseNumber (jGetStr v "4. close") = none) :
    parseDailyPoint sym d v = .ok none := by
  simp [parseDailyPoint, h]

theorem mapDaily_all_close_none (sym : String) :
    ∀ entries : List (String × JVal),
      (∀ p ∈ entries, parseNumber (jGetStr p.2 "4. close") = none) →
      mapDaily sym entries = .ok (entries.map (fun _ => none))
  | [], _ => rfl
  | (d, v) :: tl, h => by
    have hhd := parseDailyPoint_close_none sym d v
      (h (d, v) (List.mem_cons_self _ _))
    have htl := mapDaily_all_close_none sym tl
      (fun p hp => h p (List.mem_cons_of_mem _ hp))
    simp [mapDaily, hhd, htl, exBind_ok]

theorem filterMap_id_all_none {b : Type} :
    ∀ l : List (Option b), (∀ x ∈ l, x = none) → l.filterMap id = []
  | [], _ => rfl
  | x :: tl, h => by
    have hx := h x (List.mem_cons_self _ _)
    subst hx
    simp only [List.filterMap_cons, id]
    exact filterMap_id_all_none tl (fun y hy => h y (List.mem_cons_of_mem _ hy))

/-- C5 (counterexample): a daily-series payload with one dated entry whose
close is non-numeric normalizes to the EMPTY series successfully — the
emptiness check runs on the raw entry list before the per-day close filter,
so `getDailySeries` can return an empty series rather than failing. -/
theorem parseDailySeries_empty_counterexample :
    parseDailySeries "TSLA"
      [("Time Series (Daily)",
        .obj [("2024-01-01", .obj [("4. close", .str "abc")])])] = .ok [] ∧
    (getDailySeriesInternal false
      (fun _ => .success
        [("Time Series (Daily)",
          .obj [("2024-01-01", .obj [("4. close", .str "abc")])])])
      0 [] "TSLA").1 = .ok ⟨[], 0⟩ :=
  ⟨rfl, rfl⟩

/-- C5 (amended): the daily-series normalizer fails with a parse error when
the nested time-series object is absent or when the RAW date-entry list is
empty; but the emptiness check precedes the per-day close filter, so when
every day is dropped (each close absent or non-numeric) it returns an empty
series successfully instead of failing. -/
theorem parseDailySeries_empty_behavior :
    (∀ (sym : String) (payload : AlphaVantagePayload),
      payload.lookup "Time Series (Daily)" = none →
      parseDailySeries sym payload =
        .error ("Unexpected TIME_SERIES_DAILY response shape for " ++ sym ++
          ".")) ∧
    (∀ (sym : String) (payload : AlphaVantagePayload),
      payload.lookup "Time Series (Daily)" = some (.obj []) →
      parseDailySeries sym payload =
        .error ("TIME_SERIES_DAILY returned no data for " ++ sym ++ ".")) ∧
    (∀ (sym : String) (payload : AlphaVantagePayload)
        (entries : List (String × JVal)),
      payload.lookup "Time Series (Daily)" = some (.obj entries) →
      entries ≠ [] →
      (∀ p ∈ entries, parseNumber (jGetStr p.2 "4. close") = none) →
      parseDailySeries sym payload = .ok []) := by
  refine ⟨?_, ?_, ?_⟩
  · intro sym payload h
    simp [parseDailySeries, h]
  · intro sym payload h
    simp [parseDailySeries, h]
  · intro sym payload entries h hne hclose
    have hmap := mapDaily_all_close_none sym entries hclose
    have hfm : List.filterMap id
        (entries.map (fun _ => (none : Option DailySeriesPoint))) = [] :=
      filterMap_id_all_none _ (by simp)
    rcases entries with _ | ⟨e0, tl⟩
    · exact absurd rfl hne
    · simp [parseDailySeries, h, hmap, hfm, exBind_ok]

/-- Witness for C5 (amended): absent nested object, empty raw object, and
an all-dropped (non-numeric close) one-day object. -/
theorem parseDailySeries_empty_behavior_witness :
    parseDailySeries "GD" [("k", .str "v")] =
      .error "Unexpected TIME_SERIES_DAILY response shape for GD." ∧
    parseDailySeries "GD" [("Time Series (Daily)", .obj [])] =
      .error "TIME_SERIES_DAILY returned no data for GD." ∧
    parseDailySeries "GD"
      [("Time Series (Daily)",
        .obj [("2024-01-01", .obj [("4. close", .str "n/a")])])] = .ok [] :=
  ⟨by
    rw [parseDailySeries_empty_behavior.1 "GD" [("k", .str "v")] rfl]
    rfl,
   by
    rw [parseDailySeries_empty_behavior.2.1 "GD"
      [("Time Series (Daily)", .obj [])] rfl]
    rfl,
   parseDailySeries_empty_behavior.2.2 "GD"
    [("Time Series (Daily)",
      .obj [("2024-01-01", .obj [("4. close", .str "n/a")])])]
    [("2024-01-01", .obj [("4. close", .str "n/a")])] rfl
    (List.cons_ne_nil _ _)
    (by
      intro p hp
      rcases List.mem_singleton.mp hp with rfl
      decide)⟩

end StockApp

namespace StockApp

theorem exPure {e a : Type} (v : a) :
    (pure v : Except e a) = .ok v := rfl

theorem parseDailyPoint_date (sym d : String) (v : JVal)
    (pt : DailySeriesPoint) (h : parseDailyPoint sym d v = .ok (some pt)) :
    pt.date = d := by
  unfold parseDailyPoint at h
  rcases hc : parseNumber (jGetStr v "4. close") with _ | c
  · simp [hc] at h
  · simp only [hc, requireNumber] at h
    rcases ho : parseNumber (jGetStr v "1. open") with _ | o
    · simp [ho, exBind_error] at h
    · simp only [ho, exBind_ok] at h
      rcases hh : parseNumber (jGetStr v "2. high") with _ | h2
      · simp [hh, exBind_error] at h
      · simp only [hh, exBind_ok] at h
        rcases hl : parseNumber (jGetStr v "3. low") with _ | l
        · simp [hl, exBind_error, exMap_error] at h
        · simp only [hl, exBind_ok, exMap_ok, exPure] at h
          injection h with h1
          injection h1 with h2
          subst h2
          rfl

theorem mapDaily_dates_sublist (sym : String) :
    ∀ (entries : List (String × JVal)) (opts : List (Option DailySeriesPoint)),
      mapDaily sym entries = .ok opts →
      List.Sublist ((opts.filterMap id).map DailySeriesPoint.date)
        (entries.map Prod.fst)
  | [], opts, h => by
    injection h with h1
    subst h1
    simp
  | (d, v) :: tl, opts, h => by
    rcases hp : parseDailyPoint sym d v with e | p
    · simp only [mapDaily, hp, exBind_error] at h
      cases h
    · simp only [mapDaily, hp, exBind_ok] at h
      rcases hm : mapDaily sym tl with e | ps
      · simp only [hm, exBind_error] at h
        cases h
      · simp only [hm, exBind_ok, exPure] at h
        injection h with h1
        subst h1
        rcases p with _ | pt
        · simp only [List.filterMap_cons, id_eq, List.map_cons]
          exact (mapDaily_dates_sublist sym tl ps hm).cons _
        · simp only [List.filterMap_cons, id_eq, List.map_cons]
          have hd := parseDailyPoint_date sym d v pt hp
          rw [hd]
          exact (mapDaily_dates_sublist sym tl ps hm).cons₂ _

theorem filterMap_map_sublist {A B C : Type} (f : A → Option B) (g : B → C)
    (k : A → C) (hfg : ∀ a b, f a = some b → g b = k a) :
    ∀ l : List A, List.Sublist ((l.filterMap f).map g) (l.map k)
  | [] => List.Sublist.slnil
  | a :: tl => by
    rcases hf : f a with _ | b
    · simp only [List.filterMap_cons, hf, List.map_cons]
      exact (filterMap_map_sublist f g k hfg tl).cons _
    · simp only [List.filterMap_cons, hf, List.map_cons]
      rw [hfg a b hf]
      exact (filterMap_map_sublist f g k hfg tl).cons₂ _

theorem zodDailyEntries_keys :
    ∀ (entries : List (String × JVal))
      (checked : List (String × String × String)),
      zodDailyEntries entries = .ok checked →
      checked.map (fun e => e.1) = entries.map Prod.fst
  | [], checked, h => by
    injection h with h1
    subst h1
    rfl
  | (d, v) :: tl, checked, h => by
    rcases hz : zodDailyEntry v with _ | cv
    · simp only [zodDailyEntries, hz] at h
      cases h
    · rcases cv with ⟨c, vol⟩
      simp only [zodDailyEntries, hz] at h
      rcases hm : zodDailyEntries tl with e | others
      · simp only [hm, exBind_error] at h
        cases h
      · simp only [hm, exBind_ok, exPure] at h
        injection h with h1
        subst h1
        simp only [List.map_cons]
        rw [zodDailyEntries_keys tl others hm]

/-- Ascending order by date on the react variant's price records — the
order the claim asserts for every normalizer. -/
def priceAsc (a b : DailyPrice) : Prop := strLe a.date b.date = true

instance : DecidableRel priceAsc :=
  fun a b => inferInstanceAs (Decidable (strLe a.date b.date = true))

/-- C3 (counterexample): the react variant's normalizer
(`parseTimeSeriesDaily`, `part_002` line 101) sorts DESCENDING by date, so
the series handed to its presentation layer is not ascending: two valid
days come back as `[2024-01-02, 2024-01-01]`. -/
theorem parseTimeSeriesDaily_descending_counterexample :
    parseTimeSeriesDaily
      [("Time Series (Daily)", .obj
        [("2024-01-01",
          .obj [("4. close", .str "10"), ("5. volume", .str "5")]),
         ("2024-01-02",
          .obj [("4. close", .str "11"), ("5. volume", .str "6")])])] =
      .ok [⟨"2024-01-02", ⟨11, 0⟩, 6⟩, ⟨"2024-01-01", ⟨10, 0⟩, 5⟩] ∧
    ¬ List.Sorted priceAsc
      [(⟨"2024-01-02", ⟨11, 0⟩, 6⟩ : DailyPrice),
       ⟨"2024-01-01", ⟨10, 0⟩, 5⟩] :=
  ⟨by decide,
   fun h =>
    absurd ((List.pairwise_cons.mp h).1 _ (List.mem_singleton.mpr rfl))
      (by decide)⟩

/-- C3 (amended): both normalizers produce at most one point per date (the
JavaScript time-series object has unique date keys); the Next.js variant
(`getDailySeries`) sorts ascending by date string, while the react variant
(`parseTimeSeriesDaily`) sorts DESCENDING by date string — the descending
order is produced by the normalizer itself, not re-reversed presentation. -/
theorem dailySeries_sorted_unique_per_date :
    (∀ (sym : String) (payload : AlphaVantagePayload)
        (entries : List (String × JVal)) (pts : List DailySeriesPoint),
      payload.lookup "Time Series (Daily)" = some (.obj entries) →
      (entries.map Prod.fst).Nodup →
      parseDailySeries sym payload = .ok pts →
      List.Sorted pointLe pts ∧ (pts.map DailySeriesPoint.date).Nodup) ∧
    (∀ (payload : AlphaVantagePayload)
        (entries : List (String × JVal)) (ps : List DailyPrice),
      payload.lookup "Time Series (Daily)" = some (.obj entries) →
      (entries.map Prod.fst).Nodup →
      parseTimeSeriesDaily payload = .ok ps →
      List.Sorted priceGe ps ∧ (ps.map DailyPrice.date).Nodup) := by
  constructor
  · intro sym payload entries pts hlk hnd hok
    unfold parseDailySeries at hok
    simp only [hlk] at hok
    by_cases he : entries.isEmpty = true
    · simp [he] at hok
    · simp only [he, if_false, Bool.false_eq_true] at hok
      rcases hm : mapDaily sym entries with e | opts
      · simp [hm, exBind_error] at hok
      · simp only [hm, exBind_ok, exPure] at hok
        injection hok with h1
        subst h1
        refine ⟨List.sorted_insertionSort pointLe _, ?_⟩
        have hnd' : ((opts.filterMap id).map DailySeriesPoint.date).Nodup :=
          hnd.sublist (mapDaily_dates_sublist sym entries opts hm)
        have hperm :=
          (List.perm_insertionSort pointLe (opts.filterMap id)).map
            DailySeriesPoint.date
        exact hperm.symm.nodup hnd'
  · intro payload entries ps hlk hnd hok
    unfold parseTimeSeriesDaily at hok
    simp only [hlk] at hok
    rcases hz : zodDailyEntries entries with e | checked
    · simp [hz, exBind_error] at hok
    · simp only [hz, exBind_ok, exPure] at hok
      injection hok with h1
      subst h1
      refine ⟨List.sorted_insertionSort priceGe _, ?_⟩
      have hkeys := zodDailyEntries_keys entries checked hz
      have hsub : List.Sublist
          ((checked.filterMap (fun e =>
            match jsParseFloat e.2.1, jsParseIntDec e.2.2 with
            | some c, some vol =>
              some ({ date := e.1, close := c, volume := vol } : DailyPrice)
            | _, _ => none)).map DailyPrice.date)
          (checked.map (fun e => e.1)) := by
        refine filterMap_map_sublist _ _ _ ?_ checked
        intro a b hf
        rcases hc : jsParseFloat a.2.1 with _ | c
        · simp [hc] at hf
        · rcases hvol : jsParseIntDec a.2.2 with _ | vol
          · simp [hc, hvol] at hf
          · simp only [hc, hvol] at hf
            injection hf with h2
            subst h2
            rfl
      rw [hkeys] at hsub
      have hnd' := hnd.sublist hsub
      have hperm := (List.perm_insertionSort priceGe
        (checked.filterMap (fun e =>
          match jsParseFloat e.2.1, jsParseIntDec e.2.2 with
          | some c, some vol =>
            some ({ date := e.1, close := c, volume := vol } : DailyPrice)
          | _, _ => none))).map DailyPrice.date
      exact hperm.symm.nodup hnd'

/-- Witness for C3 (amended): an out-of-order two-day payload comes back
ascending with unique dates from the Next.js normalizer, and descending
with unique dates from the react normalizer. -/
theorem dailySeries_sorted_unique_per_date_witness :
    (List.Sorted pointLe
      [(⟨"2024-01-01", ⟨1, 0⟩, ⟨2, 0⟩, ⟨5, -1⟩, ⟨15, -1⟩, none⟩ :
         DailySeriesPoint),
       ⟨"2024-01-02", ⟨1, 0⟩, ⟨2, 0⟩, ⟨5, -1⟩, ⟨25, -1⟩, none⟩] ∧
     (([(⟨"2024-01-01", ⟨1, 0⟩, ⟨2, 0⟩, ⟨5, -1⟩, ⟨15, -1⟩, none⟩ :
          DailySeriesPoint),
        ⟨"2024-01-02", ⟨1, 0⟩, ⟨2, 0⟩, ⟨5, -1⟩, ⟨25, -1⟩, none⟩]).map
        DailySeriesPoint.date).Nodup) ∧
    (List.Sorted priceGe
      [(⟨"2024-01-02", ⟨11, 0⟩, 6⟩ : DailyPrice),
       ⟨"2024-01-01", ⟨10, 0⟩, 5⟩] ∧
     (([(⟨"2024-01-02", ⟨11, 0⟩, 6⟩ : DailyPrice),
        ⟨"2024-01-01", ⟨10, 0⟩, 5⟩]).map DailyPrice.date).Nodup) :=
  ⟨dailySeries_sorted_unique_per_date.1 "TSLA"
    [("Time Series (Daily)", .obj
      [("2024-01-02",
        .obj [("1. open", .str "1"), ("2. high", .str "2"),
              ("3. low", .str "0.5"), ("4. close", .str "2.5")]),
       ("2024-01-01",
        .obj [("1. open", .str "1"), ("2. high", .str "2"),
              ("3. low", .str "0.5"), ("4. close", .str "1.5")])])]
    [("2024-01-02",
      .obj [("1. open", .str "1"), ("2. high", .str "2"),
            ("3. low", .str "0.5"), ("4. close", .str "2.5")]),
     ("2024-01-01",
      .obj [("1. open", .str "1"), ("2. high", .str "2"),
            ("3. low", .str "0.5"), ("4. close", .str "1.5")])]
    [⟨"2024-01-01", ⟨1, 0⟩, ⟨2, 0⟩, ⟨5, -1⟩, ⟨15, -1⟩, none⟩,
     ⟨"2024-01-02", ⟨1, 0⟩, ⟨2, 0⟩, ⟨5, -1⟩, ⟨25, -1⟩, none⟩]
    rfl (by decide) (by decide),
   dailySeries_sorted_unique_per_date.2
    [("Time Series (Daily)", .obj
      [("2024-01-01",
        .obj [("4. close", .str "10"), ("5. volume", .str "5")]),
       ("2024-01-02",
        .obj [("4. close", .str "11"), ("5. volume", .str "6")])])]
    [("2024-01-01",
      .obj [("4. close", .str "10"), ("5. volume", .str "5")]),
     ("2024-01-02",
      .obj [("4. close", .str "11"), ("5. volume", .str "6")])]
    [⟨"2024-01-02", ⟨11, 0⟩, 6⟩, ⟨"2024-01-01", ⟨10, 0⟩, 5⟩]
    rfl (by decide) (by decide)⟩

end StockApp
